import Mathlib

/-!
Verification of package diskcache (rsc/cloud)

A shallow embedding of the on-disk read-through cache in `diskcache.go`,
together with proofs about its operations.

Modelling conventions:

* The state of a single cache entry (the four sibling files
  `.data`, `.meta`, `.used`, `.next` sharing one hash prefix) is the
  structure `EntryFS`.  The SHA-1 locator maps distinct cleaned paths to
  distinct entry groups, so per-path operations are modelled on the entry
  group of the given (already cleaned) path.
* File times are integers (`Int`); `time.Unix(0, 0)` is `0`;
  `time.Now().Before(t)` is `now < t`; `mtime.Add(d)` is `mtime + d`.
  Each call to an operation happens at a single instant `now`.
* Local-disk filesystem operations (stat, open, create, remove, rename,
  whole-file write) are modelled as infallible, per the package's
  local-disk assumption; the modelled failures are the loader's error and
  a missing `.data` at the final open.  `.meta` contents are modelled as a
  parsed record (`Option MetaDisk`, `none` for the empty file that
  `json.Unmarshal` is never given); the unparseable-JSON error path is
  therefore not represented.
* The advisory flock on `.meta` is modelled as always succeeding once the
  file exists: the embedding is sequential (one agent at a time), which is
  exactly the regime the lock establishes.
* The loader is a pure function of the path and the prior token, returning
  `cacheValid`, the new token, an optional error, and the bytes it wrote
  to the `.next` target before returning.
-/

/-- Bytes of a file, as a list of byte values. -/
abbrev Bytes := List Nat

/-- The `metaDisk` record: the on-disk metadata storage format (JSON encoded in `.meta`).
Fields `Path`, `CreateTime`, `RefreshTime`, `Load`. -/
structure MetaDisk where
  path : String
  createTime : Int
  refreshTime : Int
  load : Option Bytes
deriving Repr, DecidableEq

/-- The zero `metaDisk` record, the result of parsing an empty `.meta` file. -/
def MetaDisk.zero : MetaDisk :=
  { path := "", createTime := 0, refreshTime := 0, load := none }

/-- On-disk state of one entry group: the `.meta`, `.data`, `.next` and
`.used` files sharing one hash prefix.  A `…Exists := false` file's content
and mtime fields are irrelevant (never read by the operations). -/
structure EntryFS where
  metaExists : Bool
  metaMtime : Int
  metaContent : Option MetaDisk
  dataExists : Bool
  dataContent : Bytes
  nextExists : Bool
  nextContent : Bytes
  usedExists : Bool
  usedMtime : Int
deriving Repr, DecidableEq

/-- What a `Loader.Load` call produced: the `cacheValid` flag, the new
metadata token, an optional error, and the bytes the loader wrote to the
`target` (`.next`) file before returning. -/
structure LoadReply where
  cacheValid : Bool
  newMeta : Option Bytes
  err : Option String
  written : Bytes
deriving Repr, DecidableEq

/-- The `Loader` interface: `Load(path, target, meta)` as a pure function of
the path and the prior metadata token. -/
abbrev Loader := String → Option Bytes → LoadReply

/-- Errors `Cache.Open` can return in the embedding: the loader's error,
surfaced verbatim, or failure of the final `os.Open(prefix + ".data")`. -/
inductive OpenError where
  | loadError (msg : String)
  | openDataError
deriving Repr, DecidableEq

/-- Result of one `Cache.Open` call: the returned handle's snapshot of
`.data` (or the error), the entry state afterwards, and — as an
observation — the token the loader was called with (`none` if the loader
was not invoked at all). -/
structure OpenResult where
  result : Except OpenError Bytes
  fs : EntryFS
  calledWith : Option (Option Bytes)
deriving Repr

/-- Whether the loader was invoked during this open. -/
def OpenResult.loaderCalled (r : OpenResult) : Bool :=
  r.calledWith.isSome

/-- The freshness test used twice by `Cache.Open`:
`d == 0 || time.Now().Before(fi.ModTime().Add(d))`. -/
def freshAt (d now mtime : Int) : Bool :=
  d == 0 || decide (now < mtime + d)

/-- Function `Cache.Open` from `diskcache.go`, on the entry group of the cleaned
`path`.  `d` is the cache's expiration (`c.expiration()`), `now` the time
of the call, `loader` the cache's loader.

Transcription notes, in source order:
* Fast path: stat `.meta`; if it exists and is fresh, try `os.Open(".data")`
  and return it on success.
* Lock: `metaLock` fails iff `.meta` does not exist; then the file is
  created (`O_CREATE|O_EXCL`, mtime `now`, empty content) and the lock
  retried, which now succeeds.
* Double-check under lock: restat the `.meta`, reopen `.data`; if fresh and
  the data opened, return it.
* Read metadata (empty file parses to the zero record).  If `.data` did
  not open, remove any residual `.data` and clear `meta.Load`.
* Create `.next` (removing a stale one if present): empty, then the loader
  runs and leaves its written bytes in it.
* Loader error: `next.Close()` and return the error.  The source does NOT
  remove `.next` here, and `.meta` is not rewritten.
* `cacheValid`: remove `.next`.  Otherwise record its size, close it and
  rename it onto `.data`; `meta.CreateTime = meta.RefreshTime = now`.
* `meta.Load`, `meta.Path` updated; `ioutil.WriteFile` rewrites `.meta`
  whole (truncating), setting its mtime to `now`.
* Finally `os.Open(".data")` is the returned handle.  `checkDataLimit`
  (called when the installed size is positive) has an empty body in the
  source and so has no effect on the entry state. -/
def Cache.Open (loader : Loader) (d now : Int) (path : String)
    (fs : EntryFS) : OpenResult :=
  if fs.metaExists && freshAt d now fs.metaMtime && fs.dataExists then
    { result := .ok fs.dataContent, fs := fs, calledWith := none }
  else
    let fs1 : EntryFS :=
      if fs.metaExists then fs
      else { fs with metaExists := true, metaMtime := now, metaContent := none }
    if freshAt d now fs1.metaMtime && fs1.dataExists then
      { result := .ok fs1.dataContent, fs := fs1, calledWith := none }
    else
      let meta0 := fs1.metaContent.getD MetaDisk.zero
      let meta1 := if fs1.dataExists then meta0 else { meta0 with load := none }
      let fs2 := { fs1 with nextExists := true, nextContent := [] }
      let r := loader path meta1.load
      let fs3 := { fs2 with nextContent := r.written }
      match r.err with
      | some msg =>
          { result := .error (.loadError msg), fs := fs3,
            calledWith := some meta1.load }
      | none =>
          let meta2 := { meta1 with refreshTime := now }
          let meta3 := if r.cacheValid then meta2
            else { meta2 with createTime := now }
          let fs4 := if r.cacheValid then { fs3 with nextExists := false }
            else { fs3 with nextExists := false, dataExists := true, dataContent := r.written }
          let meta4 := { meta3 with load := r.newMeta, path := path }
          let fs5 := { fs4 with metaContent := some meta4, metaMtime := now }
          if fs5.dataExists then
            { result := .ok fs5.dataContent, fs := fs5,
              calledWith := some meta1.load }
          else
            { result := .error .openDataError, fs := fs5,
              calledWith := some meta1.load }

/-- Function `Cache.Expire` from `diskcache.go`: `os.Chtimes(prefix+".meta", t, t)`
with `t = time.Unix(0, 0)`; a missing `.meta` (`ENOENT`) is suppressed and
the call returns nil either way. -/
def Cache.Expire (fs : EntryFS) : EntryFS :=
  if fs.metaExists then { fs with metaMtime := 0 } else fs

/-- Result of `Cache.Delete`: the entry state afterwards and the returned
error (`none` = nil). -/
structure DeleteResult where
  fs : EntryFS
  err : Option String
deriving Repr

/-- Function `Cache.Delete` from `diskcache.go`: acquire the meta lock (which fails
with `IsNotExist` iff `.meta` is missing, in which case nil is returned);
then remove `.data`, `.next`, `.used`, `.meta` and close the lock handle.
With the lock held the `.meta` removal succeeds, so nil is returned. -/
def Cache.Delete (fs : EntryFS) : DeleteResult :=
  if fs.metaExists then
    { fs := { metaExists := false, metaMtime := 0, metaContent := none,
              dataExists := false, dataContent := [],
              nextExists := false, nextContent := [],
              usedExists := false, usedMtime := 0 },
      err := none }
  else
    { fs := fs, err := none }

/-- Errors `Cache.ReadFile` can return: the error from `Open`, or an error
from `ioutil.ReadAll` on the returned handle. -/
inductive ReadFileError where
  | openErr (e : OpenError)
  | readErr (msg : String)
deriving Repr, DecidableEq

/-- Result of `Cache.ReadFile`: the `([]byte, error)` pair, the entry state
afterwards, and — as an observation — whether the handle obtained from
`Open` was closed before returning. -/
structure ReadFileResult where
  bytes : Option Bytes
  err : Option ReadFileError
  fs : EntryFS
  closedHandle : Bool
deriving Repr

/-- Function `Cache.ReadFile` from `diskcache.go`: open, `defer f.Close()`, and
return `ioutil.ReadAll(f)`.  `readAll` abstracts `ioutil.ReadAll` on the
handle's snapshot, returning the bytes it read and an optional error; the
actual behaviour on a pure snapshot is `fun b => (b, none)`. -/
def Cache.ReadFile (loader : Loader) (readAll : Bytes → Bytes × Option String)
    (d now : Int) (path : String) (fs : EntryFS) : ReadFileResult :=
  let r := Cache.Open loader d now path fs
  match r.result with
  | .error e =>
      { bytes := none, err := some (.openErr e), fs := r.fs,
        closedHandle := false }
  | .ok handleBytes =>
      let (data, rerr) := readAll handleBytes
      { bytes := some data, err := rerr.map .readErr, fs := r.fs,
        closedHandle := true }

/-!
Eviction (size cap)

In the source, `Cache.checkDataLimit` has an empty body and the package
doc states: "This package is unfinished. In particular … as is the code to
delete files to stay within the maximum data size limit."  The deciding
code is therefore absent from the repository; the algorithm below is
modelled from the spec.
-/

/-- One entry as seen by the eviction walk: its `.data` size and the mtime
of its `.used` file. -/
structure EvictEntry where
  dataSize : Nat
  usedMtime : Int
deriving Repr, DecidableEq

/-- Sum of the `.data` sizes of the listed entries. -/
def totalData (es : List EvictEntry) : Nat :=
  (es.map (fun e => e.dataSize)).sum

/-- Modelled from the spec: pick out an entry with the oldest `used_mtime`
among `e :: l`, returning it together with the remaining entries. -/
def extractOldest (e : EvictEntry) : List EvictEntry → EvictEntry × List EvictEntry
  | [] => (e, [])
  | x :: xs =>
      if x.usedMtime < e.usedMtime then
        let p := extractOldest x xs
        (p.1, e :: p.2)
      else
        let p := extractOldest e xs
        (p.1, x :: p.2)

/-- Modelled from the spec: the eviction loop — while the sum of `.data`
sizes exceeds `maxData`, delete the entry with the oldest `used_mtime`
(its `.data`, `.meta`, `.used` and any stray `.next`, under its meta lock)
and subtract its size.  Structured with explicit fuel; `fuel = es.length`
suffices since each round deletes one entry. -/
def evictLoop : Nat → Nat → List EvictEntry → List EvictEntry
  | 0, _, es => es
  | fuel + 1, maxData, es =>
      if totalData es ≤ maxData then es
      else
        match es with
        | [] => []
        | e :: l => evictLoop fuel maxData (extractOldest e l).2

/-- Modelled from the spec: `Cache.checkDataLimit`, whose body is
unimplemented in the source.  Walk the cache root collecting
`(data_size, used_mtime)` for every entry with a `.data` file; with
`max_data == 0` meaning unbounded (no action), delete oldest-used-first
until the total fits. -/
def checkDataLimit (maxData : Nat) (es : List EvictEntry) : List EvictEntry :=
  if maxData = 0 then es else evictLoop es.length maxData es

/-!
Concrete fixtures

Used by witnesses, counterexamples and sanity checks.
-/

/-- The empty entry state: none of the four files exists. -/
def fsEmpty : EntryFS :=
  { metaExists := false, metaMtime := 0, metaContent := none,
    dataExists := false, dataContent := [],
    nextExists := false, nextContent := [],
    usedExists := false, usedMtime := 0 }

/-- An entry state holding a valid cached copy written at time 500. -/
def fsCached : EntryFS :=
  { metaExists := true, metaMtime := 500,
    metaContent := some { path := "/file", createTime := 500,
                          refreshTime := 500, load := some [49] },
    dataExists := true, dataContent := [104, 105],
    nextExists := false, nextContent := [],
    usedExists := false, usedMtime := 0 }

/-- A loader that always fetches: writes the byte `104` and returns the
token `[49]`. -/
def fetchLoader : Loader := fun _ _ =>
  { cacheValid := false, newMeta := some [49], err := none, written := [104] }

/-- A loader that always reports the cached copy still valid, with
refreshed token `[50]`, writing nothing. -/
def validLoader : Loader := fun _ _ =>
  { cacheValid := true, newMeta := some [50], err := none, written := [] }

/-- A loader that always fails with the message "boom". -/
def errLoader : Loader := fun _ _ =>
  { cacheValid := false, newMeta := none, err := some "boom", written := [] }

/-- Two eviction-walk entries of 2 bytes each, last used at times 10 and 5. -/
def evictDemo : List EvictEntry := [⟨2, 10⟩, ⟨2, 5⟩]

/- Sanity checks mirroring TestBasic: a first open on an empty cache
fetches; a second open with expiration 0 serves the cache without calling
the loader. -/
example : (Cache.Open fetchLoader 0 1000 "/file" fsEmpty).result = .ok [104] := rfl
example : (Cache.Open fetchLoader 0 1000 "/file" fsEmpty).loaderCalled = true := rfl
example :
    (Cache.Open fetchLoader 0 1001 "/file"
      (Cache.Open fetchLoader 0 1000 "/file" fsEmpty).fs).loaderCalled = false := rfl

/-!
Claims
-/

/-- C1: the claim states that after `Expire(p)` the very next `Open(p)`
invokes the loader regardless of the expiration setting, including
expiration 0.  The code violates this: its freshness test is
`d == 0 || now.Before(mtime.Add(d))`, which with `d == 0` is true no
matter the mtime, so after `Expire` (mtime set to the epoch) an `Open`
with expiration 0 takes the fast path and serves the cached bytes without
invoking the loader — contradicting the package doc's epoch special case
and `Expire`'s own doc comment.  This theorem evaluates the code at the
failing input. -/
theorem expire_then_open_with_zero_expiration_skips_loader :
    (Cache.Expire fsCached).metaMtime = 0 ∧
    (Cache.Open fetchLoader 0 1000 "/file" (Cache.Expire fsCached)).loaderCalled = false ∧
    (Cache.Open fetchLoader 0 1000 "/file" (Cache.Expire fsCached)).result = .ok [104, 105] :=
  ⟨rfl, rfl, rfl⟩

/-- C2: the claim states that every successful `Open` rewrites the entry's
`.used` file.  The code violates this: `Open` never references `.used` at
all, contradicting the package doc ("It is rewritten each time the .data
file is opened to satisfy a file open operation").  The universal part
shows `Open` leaves the `.used` state of every entry untouched; the
concrete part exhibits a successful open after which no `.used` file
exists. -/
theorem open_never_touches_used :
    (∀ (loader : Loader) (d now : Int) (path : String) (fs : EntryFS),
        (Cache.Open loader d now path fs).fs.usedExists = fs.usedExists ∧
        (Cache.Open loader d now path fs).fs.usedMtime = fs.usedMtime) ∧
    (Cache.Open fetchLoader 0 1000 "/file" fsEmpty).result = .ok [104] ∧
    (Cache.Open fetchLoader 0 1000 "/file" fsEmpty).fs.usedExists = false := by
  refine ⟨?_, rfl, rfl⟩
  intro loader d now path fs
  simp only [Cache.Open]
  repeat' split
  all_goals simp_all

/-- C4 counterexample: the claim states that on a loader error `Open`
closes AND UNLINKS the `.next` file.  At this concrete input (a stale
cached entry, expiration 1, a loader that fails) the error is surfaced but
the `.next` file is still on disk afterwards: the source's error branch
runs `next.Close()` without `os.Remove(prefix + ".next")`. -/
theorem open_loader_error_leaves_next_on_disk :
    (Cache.Open errLoader 1 1000 "/file" fsCached).result = .error (.loadError "boom") ∧
    (Cache.Open errLoader 1 1000 "/file" fsCached).fs.nextExists = true :=
  ⟨rfl, rfl⟩

/-- C4 (amended): if the loader's Load call made during `Open` returns a
non-nil error, `Open` closes the `.next` file but leaves it on disk (a
later `Open` removes the stale `.next` before retrying), releases the meta
lock, and returns that error, with the `.meta` file neither rewritten nor
its modification time touched (no negative caching), and `.data`
untouched. -/
theorem open_loader_error_no_negative_caching (loader : Loader) (d now : Int)
    (path : String) (fs : EntryFS) (msg : String)
    (hm : fs.metaExists = true)
    (hst : freshAt d now fs.metaMtime = false)
    (hl : ∀ t, (loader path t).err = some msg) :
    (Cache.Open loader d now path fs).loaderCalled = true ∧
    (Cache.Open loader d now path fs).result = .error (.loadError msg) ∧
    (Cache.Open loader d now path fs).fs.nextExists = true ∧
    (Cache.Open loader d now path fs).fs.metaExists = true ∧
    (Cache.Open loader d now path fs).fs.metaContent = fs.metaContent ∧
    (Cache.Open loader d now path fs).fs.metaMtime = fs.metaMtime ∧
    (Cache.Open loader d now path fs).fs.dataExists = fs.dataExists ∧
    (Cache.Open loader d now path fs).fs.dataContent = fs.dataContent := by
  simp [Cache.Open, OpenResult.loaderCalled, hm, hst, hl]

/-- C4 witness. -/
theorem open_loader_error_no_negative_caching_witness :
    fsCached.metaExists = true ∧
    freshAt 1 1000 fsCached.metaMtime = false ∧
    (∀ t, (errLoader "/file" t).err = some "boom") ∧
    (Cache.Open errLoader 1 1000 "/file" fsCached).result = .error (.loadError "boom") ∧
    (Cache.Open errLoader 1 1000 "/file" fsCached).fs.metaMtime = fsCached.metaMtime :=
  ⟨rfl, rfl, fun _ => rfl,
    (open_loader_error_no_negative_caching errLoader 1 1000 "/file" fsCached "boom"
      rfl rfl (fun _ => rfl)).2.1,
    (open_loader_error_no_negative_caching errLoader 1 1000 "/file" fsCached "boom"
      rfl rfl (fun _ => rfl)).2.2.2.2.2.1⟩

/-- C5: when the loader fetches (`cacheValid == false`, no error) during a
slow-path `Open`, the bytes it wrote to `.next` are renamed onto `.data`,
`.next` is gone, the metadata record has `create_time = refresh_time = now`
and `load_token` set to the loader's new token (and the `.meta` mtime is
`now`), and the returned handle reads exactly the bytes the loader
wrote. -/
theorem open_fetch_installs_next_as_data (loader : Loader) (d now : Int)
    (path : String) (fs : EntryFS) (tok : Option Bytes) (bs : Bytes)
    (hm : fs.metaExists = true)
    (hst : freshAt d now fs.metaMtime = false)
    (hl : ∀ t, loader path t =
      { cacheValid := false, newMeta := tok, err := none, written := bs }) :
    (Cache.Open loader d now path fs).loaderCalled = true ∧
    (Cache.Open loader d now path fs).result = .ok bs ∧
    (Cache.Open loader d now path fs).fs.dataExists = true ∧
    (Cache.Open loader d now path fs).fs.dataContent = bs ∧
    (Cache.Open loader d now path fs).fs.nextExists = false ∧
    (Cache.Open loader d now path fs).fs.metaContent =
      some { path := path, createTime := now, refreshTime := now, load := tok } ∧
    (Cache.Open loader d now path fs).fs.metaMtime = now := by
  simp [Cache.Open, OpenResult.loaderCalled, hm, hst, hl]

/-- C5 witness. -/
theorem open_fetch_installs_next_as_data_witness :
    fsCached.metaExists = true ∧
    freshAt 1 1000 fsCached.metaMtime = false ∧
    (∀ t, fetchLoader "/file" t =
      { cacheValid := false, newMeta := some [49], err := none, written := [104] }) ∧
    (Cache.Open fetchLoader 1 1000 "/file" fsCached).result = .ok [104] ∧
    (Cache.Open fetchLoader 1 1000 "/file" fsCached).fs.metaContent =
      some { path := "/file", createTime := 1000, refreshTime := 1000, load := some [49] } :=
  ⟨rfl, rfl, fun _ => rfl,
    (open_fetch_installs_next_as_data fetchLoader 1 1000 "/file" fsCached
      (some [49]) [104] rfl rfl (fun _ => rfl)).2.1,
    (open_fetch_installs_next_as_data fetchLoader 1 1000 "/file" fsCached
      (some [49]) [104] rfl rfl (fun _ => rfl)).2.2.2.2.2.1⟩

/-- C6: when the loader confirms the cached copy (`cacheValid == true`, no
error) during a slow-path `Open` of an entry whose `.data` exists and whose
metadata record `m` carries this entry's path, the `.data` contents are
left unchanged (and are what the handle reads), the `.next` file is
removed, and the metadata record changes only in `refresh_time` (set to
`now`) and `load_token` (set to the loader's token): `create_time` and
`path` are untouched. -/
theorem open_cache_valid_keeps_data (loader : Loader) (d now : Int)
    (path : String) (fs : EntryFS) (tok : Option Bytes) (w : Bytes) (m : MetaDisk)
    (hm : fs.metaExists = true)
    (hst : freshAt d now fs.metaMtime = false)
    (hd : fs.dataExists = true)
    (hmc : fs.metaContent = some m)
    (hp : m.path = path)
    (hl : ∀ t, loader path t =
      { cacheValid := true, newMeta := tok, err := none, written := w }) :
    (Cache.Open loader d now path fs).loaderCalled = true ∧
    (Cache.Open loader d now path fs).result = .ok fs.dataContent ∧
    (Cache.Open loader d now path fs).fs.dataExists = true ∧
    (Cache.Open loader d now path fs).fs.dataContent = fs.dataContent ∧
    (Cache.Open loader d now path fs).fs.nextExists = false ∧
    (Cache.Open loader d now path fs).fs.metaContent =
      some { m with refreshTime := now, load := tok } := by
  simp [Cache.Open, OpenResult.loaderCalled, hm, hst, hd, hmc, hl, hp]

/-- C6 witness. -/
theorem open_cache_valid_keeps_data_witness :
    fsCached.metaExists = true ∧
    freshAt 1 1000 fsCached.metaMtime = false ∧
    fsCached.dataExists = true ∧
    (Cache.Open validLoader 1 1000 "/file" fsCached).result = .ok [104, 105] ∧
    (Cache.Open validLoader 1 1000 "/file" fsCached).fs.metaContent =
      some { path := "/file", createTime := 500, refreshTime := 1000, load := some [50] } :=
  ⟨rfl, rfl, rfl,
    (open_cache_valid_keeps_data validLoader 1 1000 "/file" fsCached
      (some [50]) [] { path := "/file", createTime := 500, refreshTime := 500, load := some [49] }
      rfl rfl rfl rfl rfl (fun _ => rfl)).2.1,
    (open_cache_valid_keeps_data validLoader 1 1000 "/file" fsCached
      (some [50]) [] { path := "/file", createTime := 500, refreshTime := 500, load := some [49] }
      rfl rfl rfl rfl rfl (fun _ => rfl)).2.2.2.2.2⟩

/-- C8: on the slow path of `Open`, if the `.data` file cannot be opened,
the stored `load_token` is cleared before the loader is invoked: the
loader is called, and the prior-token argument it receives is nil. -/
theorem open_missing_data_clears_token (loader : Loader) (d now : Int)
    (path : String) (fs : EntryFS)
    (hm : fs.metaExists = true)
    (hst : freshAt d now fs.metaMtime = false)
    (hd : fs.dataExists = false) :
    (Cache.Open loader d now path fs).calledWith = some none := by
  simp [Cache.Open, hm, hst, hd]
  repeat' split
  all_goals simp_all

/-- Helper: a fresh entry with `.meta` and `.data` present is served on the
fast path — `Open` returns the `.data` snapshot, mutates nothing and never
reaches the loader. -/
theorem open_fast_path (loader : Loader) (d now : Int) (path : String)
    (fs : EntryFS)
    (hme : fs.metaExists = true)
    (hfr : freshAt d now fs.metaMtime = true)
    (hde : fs.dataExists = true) :
    Cache.Open loader d now path fs =
      { result := .ok fs.dataContent, fs := fs, calledWith := none } := by
  simp [Cache.Open, hme, hfr, hde]

/-- Helper: any successful `Open` leaves the entry with `.meta` and `.data`
present, and `.data` holds exactly the bytes of the returned handle. -/
theorem open_ok_state (loader : Loader) (d now : Int) (path : String)
    (fs : EntryFS) (bs : Bytes)
    (h : (Cache.Open loader d now path fs).result = .ok bs) :
    (Cache.Open loader d now path fs).fs.metaExists = true ∧
    (Cache.Open loader d now path fs).fs.dataExists = true ∧
    (Cache.Open loader d now path fs).fs.dataContent = bs := by
  simp only [Cache.Open] at h ⊢
  repeat' split at h
  all_goals simp_all

/-- C7: once a path has been opened successfully (handle bytes `bs`), a
second `Open` while the entry is still within the expiration window — in
particular always, when expiration is 0 — serves the same bytes `bs` from
the cache, leaves the entry untouched, and does not invoke the loader; so
across the two opens the loader ran at most once (namely at most in the
first). -/
theorem open_twice_within_window (loader : Loader) (d now1 now2 : Int)
    (path : String) (fs : EntryFS) (bs : Bytes)
    (h1 : (Cache.Open loader d now1 path fs).result = .ok bs)
    (h2 : freshAt d now2 (Cache.Open loader d now1 path fs).fs.metaMtime = true) :
    (Cache.Open loader d now2 path (Cache.Open loader d now1 path fs).fs).result = .ok bs ∧
    (Cache.Open loader d now2 path (Cache.Open loader d now1 path fs).fs).loaderCalled = false ∧
    (Cache.Open loader d now2 path (Cache.Open loader d now1 path fs).fs).fs =
      (Cache.Open loader d now1 path fs).fs ∧
    (if (Cache.Open loader d now1 path fs).loaderCalled then 1 else 0) +
      (if (Cache.Open loader d now2 path
            (Cache.Open loader d now1 path fs).fs).loaderCalled then 1 else 0) ≤ 1 := by
  obtain ⟨hme, hde, hdc⟩ := open_ok_state loader d now1 path fs bs h1
  rw [open_fast_path loader d now2 path _ hme h2 hde]
  refine ⟨by simp [hdc], rfl, rfl, ?_⟩
  cases hc : (Cache.Open loader d now1 path fs).loaderCalled <;>
    simp [OpenResult.loaderCalled, hc]

/-- C7 witness: a cold first open of "/file" (one loader call) followed by
a second open with expiration 0. -/
theorem open_twice_within_window_witness :
    (Cache.Open fetchLoader 0 1000 "/file" fsEmpty).result = .ok [104] ∧
    freshAt 0 1001 (Cache.Open fetchLoader 0 1000 "/file" fsEmpty).fs.metaMtime = true ∧
    (Cache.Open fetchLoader 0 1001 "/file"
      (Cache.Open fetchLoader 0 1000 "/file" fsEmpty).fs).result = .ok [104] ∧
    (Cache.Open fetchLoader 0 1001 "/file"
      (Cache.Open fetchLoader 0 1000 "/file" fsEmpty).fs).loaderCalled = false :=
  ⟨rfl, rfl,
    (open_twice_within_window fetchLoader 0 1000 1001 "/file" fsEmpty [104] rfl rfl).1,
    (open_twice_within_window fetchLoader 0 1000 1001 "/file" fsEmpty [104] rfl rfl).2.1⟩

/-- C8 witness: an entry with metadata holding the stale token `[49]` but
no `.data` file. -/
theorem open_missing_data_clears_token_witness :
    { fsCached with dataExists := false }.metaExists = true ∧
    freshAt 1 1000 { fsCached with dataExists := false }.metaMtime = false ∧
    { fsCached with dataExists := false }.dataExists = false ∧
    (Cache.Open fetchLoader 1 1000 "/file"
      { fsCached with dataExists := false }).calledWith = some none :=
  ⟨rfl, rfl, rfl,
    open_missing_data_clears_token fetchLoader 1 1000 "/file"
      { fsCached with dataExists := false } rfl rfl rfl⟩

/-- C9: `Delete` returns nil; when the entry exists (the meta lock could be
acquired) it removes `.data`, `.next`, `.used` and `.meta`, so the entry
group contains no files afterwards; when the entry does not exist (lock
acquisition fails with not-exist) it is a silent no-op. -/
theorem delete_removes_entry_group (fs : EntryFS) :
    (Cache.Delete fs).err = none ∧
    (fs.metaExists = true →
      (Cache.Delete fs).fs.metaExists = false ∧
      (Cache.Delete fs).fs.dataExists = false ∧
      (Cache.Delete fs).fs.nextExists = false ∧
      (Cache.Delete fs).fs.usedExists = false) ∧
    (fs.metaExists = false → (Cache.Delete fs).fs = fs) := by
  by_cases h : fs.metaExists = true <;> simp [Cache.Delete, h]

/-- C9 witness: deleting the populated entry `fsCached` and the missing
entry `fsEmpty`. -/
theorem delete_removes_entry_group_witness :
    (Cache.Delete fsCached).err = none ∧
    (Cache.Delete fsCached).fs.dataExists = false ∧
    (Cache.Delete fsEmpty).fs = fsEmpty :=
  ⟨(delete_removes_entry_group fsCached).1,
    ((delete_removes_entry_group fsCached).2.1 rfl).2.1,
    (delete_removes_entry_group fsEmpty).2.2 rfl⟩

/-- C10: `ReadFile` is `Open` + `defer Close` + `ReadAll`: when `Open`
fails it returns nil bytes and the same error (no handle was obtained);
when `Open` succeeds it returns exactly what `ReadAll` read from the
handle — with the faithful `ReadAll` semantics on a snapshot, the handle's
complete byte contents and no error — and the handle is closed before
returning both on read success and on read failure. -/
theorem readFile_reads_and_closes (loader : Loader)
    (readAll : Bytes → Bytes × Option String) (d now : Int) (path : String)
    (fs : EntryFS) :
    (∀ e, (Cache.Open loader d now path fs).result = .error e →
      (Cache.ReadFile loader readAll d now path fs).bytes = none ∧
      (Cache.ReadFile loader readAll d now path fs).err = some (.openErr e) ∧
      (Cache.ReadFile loader readAll d now path fs).fs =
        (Cache.Open loader d now path fs).fs) ∧
    (∀ bs, (Cache.Open loader d now path fs).result = .ok bs →
      (Cache.ReadFile loader readAll d now path fs).closedHandle = true ∧
      (Cache.ReadFile loader readAll d now path fs).bytes = some (readAll bs).1 ∧
      (Cache.ReadFile loader readAll d now path fs).err =
        (readAll bs).2.map ReadFileError.readErr ∧
      (Cache.ReadFile loader readAll d now path fs).fs =
        (Cache.Open loader d now path fs).fs) ∧
    ((∀ b, readAll b = (b, none)) →
      ∀ bs, (Cache.Open loader d now path fs).result = .ok bs →
        (Cache.ReadFile loader readAll d now path fs).bytes = some bs ∧
        (Cache.ReadFile loader readAll d now path fs).err = none) := by
  refine ⟨?_, ?_, ?_⟩
  · intro e he
    simp [Cache.ReadFile, he]
  · intro bs hb
    simp [Cache.ReadFile, hb]
  · intro hid bs hb
    simp [Cache.ReadFile, hb, hid]

/-- C10 witness: reading "/file" on a cold cache through the faithful
`ReadAll`, and an open failure through an always-failing loader. -/
theorem readFile_reads_and_closes_witness :
    (Cache.Open fetchLoader 0 1000 "/file" fsEmpty).result = .ok [104] ∧
    (Cache.ReadFile fetchLoader (fun b => (b, none)) 0 1000 "/file" fsEmpty).bytes =
      some [104] ∧
    (Cache.ReadFile fetchLoader (fun b => (b, none)) 0 1000 "/file" fsEmpty).closedHandle =
      true ∧
    (Cache.Open errLoader 0 1000 "/nope" fsEmpty).result = .error (.loadError "boom") ∧
    (Cache.ReadFile errLoader (fun b => (b, none)) 0 1000 "/nope" fsEmpty).err =
      some (.openErr (.loadError "boom")) :=
  ⟨rfl,
    ((readFile_reads_and_closes fetchLoader (fun b => (b, none)) 0 1000 "/file" fsEmpty).2.2
      (fun _ => rfl) [104] rfl).1,
    ((readFile_reads_and_closes fetchLoader (fun b => (b, none)) 0 1000 "/file" fsEmpty).2.1
      [104] rfl).1,
    rfl,
    ((readFile_reads_and_closes errLoader (fun b => (b, none)) 0 1000 "/nope" fsEmpty).1
      (.loadError "boom") rfl).2.1⟩

/-- The entry `extractOldest` picks, together with the remaining entries,
is a permutation of the input. -/
theorem extractOldest_perm (e : EvictEntry) (l : List EvictEntry) :
    List.Perm ((extractOldest e l).1 :: (extractOldest e l).2) (e :: l) := by
  induction l generalizing e with
  | nil => simp [extractOldest]
  | cons x xs ih =>
    simp only [extractOldest]
    split
    · exact (List.Perm.swap e (extractOldest x xs).1 (extractOldest x xs).2).trans
        ((ih x).cons e)
    · exact (List.Perm.swap x (extractOldest e xs).1 (extractOldest e xs).2).trans
        (((ih e).cons x).trans (List.Perm.swap e x xs))

/-- The entry `extractOldest` picks has the oldest `used_mtime`. -/
theorem extractOldest_min (e : EvictEntry) (l : List EvictEntry) :
    ∀ x ∈ e :: l, (extractOldest e l).1.usedMtime ≤ x.usedMtime := by
  induction l generalizing e with
  | nil =>
    intro x hx
    simp only [List.mem_singleton] at hx
    simp [extractOldest, hx]
  | cons y ys ih =>
    intro x hx
    simp only [extractOldest]
    rcases List.mem_cons.mp hx with hxe | hx'
    · split
      · next hlt =>
        rw [hxe]
        exact le_of_lt (lt_of_le_of_lt (ih y y (List.mem_cons_self y ys)) hlt)
      · next hge =>
        rw [hxe]
        exact ih e e (List.mem_cons_self e ys)
    · rcases List.mem_cons.mp hx' with hxy | hxs
      · split
        · next hlt =>
          rw [hxy]
          exact ih y y (List.mem_cons_self y ys)
        · next hge =>
          rw [hxy]
          exact le_trans (ih e e (List.mem_cons_self e ys)) (le_of_not_lt hge)
      · split
        · next hlt => exact ih y x (List.mem_cons_of_mem y hxs)
        · next hge => exact ih e x (List.mem_cons_of_mem e hxs)

/-- Lemma: `extractOldest` removes exactly one entry. -/
theorem extractOldest_length (e : EvictEntry) (l : List EvictEntry) :
    (extractOldest e l).2.length = l.length := by
  have h := (extractOldest_perm e l).length_eq
  simpa using h

/-- With fuel at least the number of entries, the eviction loop reaches a
total within the budget. -/
theorem evictLoop_le (fuel maxData : Nat) : ∀ es : List EvictEntry,
    es.length ≤ fuel → totalData (evictLoop fuel maxData es) ≤ maxData := by
  induction fuel with
  | zero =>
    intro es h
    have : es = [] := List.eq_nil_of_length_eq_zero (Nat.le_zero.mp h)
    simp [this, evictLoop, totalData]
  | succ n ih =>
    intro es h
    simp only [evictLoop]
    split
    · next hle => exact hle
    · next hgt =>
      cases es with
      | nil => simp [totalData]
      | cons e l =>
        apply ih
        rw [extractOldest_length]
        simp only [List.length_cons] at h
        omega

/-- A list already within the budget is left untouched by the loop. -/
theorem evictLoop_noop (fuel maxData : Nat) (es : List EvictEntry)
    (h : totalData es ≤ maxData) : evictLoop fuel maxData es = es := by
  cases fuel with
  | zero => rfl
  | succ n => simp [evictLoop, h]

/-- The loop deletes oldest-`used_mtime`-first: the input is a permutation
of the removed entries plus the survivors, and no removed entry is newer
than any survivor. -/
theorem evictLoop_oldest_first (maxData : Nat) : ∀ (fuel : Nat) (es : List EvictEntry),
    ∃ removed : List EvictEntry,
      List.Perm es (removed ++ evictLoop fuel maxData es) ∧
      ∀ r ∈ removed, ∀ k ∈ evictLoop fuel maxData es,
        r.usedMtime ≤ k.usedMtime := by
  intro fuel
  induction fuel with
  | zero =>
    intro es
    exact ⟨[], by simp [evictLoop], by simp⟩
  | succ n ih =>
    intro es
    simp only [evictLoop]
    split
    · exact ⟨[], by simp, by simp⟩
    · cases es with
      | nil => exact ⟨[], by simp, by simp⟩
      | cons e l =>
        obtain ⟨rm, hperm, hmin⟩ := ih (extractOldest e l).2
        refine ⟨(extractOldest e l).1 :: rm, ?_, ?_⟩
        · exact (extractOldest_perm e l).symm.trans (hperm.cons _)
        · intro r hr k hk
          rcases List.mem_cons.mp hr with hre | hrm
          · subst hre
            have hk1 : k ∈ rm ++ evictLoop n maxData (extractOldest e l).2 :=
              List.mem_append_right rm hk
            have hk2 : k ∈ (extractOldest e l).2 := hperm.symm.mem_iff.mp hk1
            have hk3 : k ∈ (extractOldest e l).1 :: (extractOldest e l).2 :=
              List.mem_cons_of_mem _ hk2
            have hk4 : k ∈ e :: l := (extractOldest_perm e l).mem_iff.mp hk3
            exact extractOldest_min e l k hk4
          · exact hmin r hrm k hk

/-- C3: for every positive `max_data`, eviction — modelled from the spec,
the source's `checkDataLimit` being an unimplemented stub — brings the sum
of all `.data` sizes to at most `max_data`, does nothing when the sum
already fits, and deletes entries oldest-`.used`-mtime-first: the input
entries are exactly the removed ones plus the survivors, and every removed
entry's `.used` mtime is at most that of every survivor. -/
theorem checkDataLimit_enforces_budget (maxData : Nat) (es : List EvictEntry)
    (h : 0 < maxData) :
    totalData (checkDataLimit maxData es) ≤ maxData ∧
    (totalData es ≤ maxData → checkDataLimit maxData es = es) ∧
    ∃ removed : List EvictEntry,
      List.Perm es (removed ++ checkDataLimit maxData es) ∧
      ∀ r ∈ removed, ∀ k ∈ checkDataLimit maxData es,
        r.usedMtime ≤ k.usedMtime := by
  have hne : maxData ≠ 0 := Nat.pos_iff_ne_zero.mp h
  refine ⟨?_, ?_, ?_⟩
  · simp only [checkDataLimit, hne, if_false]
    exact evictLoop_le es.length maxData es le_rfl
  · intro hle
    simp only [checkDataLimit, hne, if_false]
    exact evictLoop_noop es.length maxData es hle
  · simp only [checkDataLimit, hne, if_false]
    exact evictLoop_oldest_first maxData es.length es

/-- C3 witness: two 2-byte entries against a 3-byte budget; the entry last
used at time 5 is evicted, the one last used at time 10 survives. -/
theorem checkDataLimit_enforces_budget_witness :
    0 < 3 ∧ totalData (checkDataLimit 3 evictDemo) ≤ 3 ∧
    checkDataLimit 3 evictDemo = [⟨2, 10⟩] :=
  ⟨by decide, (checkDataLimit_enforces_budget 3 evictDemo (by decide)).1, by decide⟩
